import Mathlib

/-!
A shallow embedding of the rate-limited multi-source aggregation and scoring
engine of `src/app/scraper/multi_source_scraper.py` (class `MultiSourceScraper`),
together with theorems settling the frozen claims about it.

Modelling conventions:
* Python `float` values are modelled as exact rationals (`ℚ`); Python `int`
  as `ℤ`.
* A Python dict field that may be absent is an outer `Option`; a field whose
  value may be `None` gets an inner `Option` (`Option (Option String)`:
  `none` = key absent, `some none` = key present with value `None`).
* `time.time()` and `datetime.now(timezone.utc)` are passed in explicitly as
  a `now` parameter; `asyncio.sleep d` is modelled as advancing the clock by
  exactly `d` and is recorded in the returned trace.
* Raised-and-caught Python exceptions are modelled with `Option`
  (`none` = an exception escaped the modelled block).
-/

namespace MultiSourceScraper
/-! ### Rate limiter state (`self.rate_limits`, lines 53-56)

`{'github': {'calls': 0, 'reset_time': time.time(), 'limit': 4500}}` -/

structure RateInfo where
  calls : ℤ
  resetTime : ℚ
  limit : ℤ
  deriving Repr, DecidableEq

/-- The dictionary `self.rate_limits` as built in `__init__` (line 54-56):
a single entry for source `"github"` with limit 4500. -/

def initRateLimits (now : ℚ) : List (String × RateInfo) :=
  [("github", { calls := 0, resetTime := now, limit := 4500 })]

/-- In-place mutation of one entry of the dict, modelled as replacing the
first (only) binding of the key. -/

def updateAssoc (key : String) (v : RateInfo) :
    List (String × RateInfo) → List (String × RateInfo)
  | [] => []
  | (k, w) :: rest =>
    if k = key then (k, v) :: rest else (k, w) :: updateAssoc key v rest

/-- `_check_rate_limit` (lines 65-87), for a source that has a window.
Returns the updated window together with the total time slept
(`asyncio.sleep(wait_time)` modelled as advancing the clock by exactly
`wait_time`, so the `time.time()` after the sleep is `now + wait`). -/

def checkRateLimit (r : RateInfo) (now : ℚ) : RateInfo × ℚ :=
  -- `if current_time - rate_info['reset_time'] >= 3600: calls = 0; reset_time = current_time`
  let r1 := if 3600 ≤ now - r.resetTime then { r with calls := 0, resetTime := now } else r
  -- `if rate_info['calls'] >= rate_info['limit']: wait_time = 3600 - (current_time - reset_time); ...`
  let step2 : RateInfo × ℚ :=
    if r1.limit ≤ r1.calls then
      let wait := 3600 - (now - r1.resetTime)
      if 0 < wait then ({ r1 with calls := 0, resetTime := now + wait }, wait)
      else (r1, 0)
    else (r1, 0)
  -- `rate_info['calls'] += 1`
  ({ step2.1 with calls := step2.1.calls + 1 }, step2.2)

/-- `_check_rate_limit(source)` on the whole dict: `if source not in
self.rate_limits: return` (lines 67-68), otherwise run `checkRateLimit` on
that source's window. -/

def checkRateLimitSource (limits : List (String × RateInfo)) (source : String)
    (now : ℚ) : List (String × RateInfo) × ℚ :=
  match limits.lookup source with
  | none => (limits, 0)
  | some r =>
    let res := checkRateLimit r now
    (updateAssoc source res.1 limits, res.2)

/-! ### `_make_request` (lines 89-152) -/

variable {β : Type}

/-- The outcome of one HTTP attempt inside the retry loop: a response
(status, optional `Retry-After` header value, parsed JSON body), or a raised
transport / JSON-parsing exception (the `except Exception` arm,
lines 147-150). -/

inductive Outcome (β : Type) where
  | resp (status : ℕ) (retryAfter : Option String) (body : β)
  | exc
  deriving Repr, DecidableEq

/-- Python whitespace stripped by `int(...)` / `str.strip`. -/

def isPySpace (c : Char) : Bool :=
  c = ' ' ∨ c = '\t' ∨ c = '\n' ∨ c = '\r' ∨ c = '\x0b' ∨ c = '\x0c'

/-- Strip leading and trailing whitespace from a character list. -/

def trimChars (cs : List Char) : List Char :=
  ((cs.dropWhile isPySpace).reverse.dropWhile isPySpace).reverse

/-- Value of a nonempty all-digit character list. -/

def digitsToNat? : List Char → Option ℕ
  | [] => none
  | ds =>
    if ds.all Char.isDigit then
      some (ds.foldl (fun n c => 10 * n + (c.toNat - 48)) 0)
    else none

/-- Python `int(s)` on a decimal string: surrounding whitespace stripped, one
optional sign, then decimal digits; `none` models the raised `ValueError`.
(Underscore digit grouping and non-ASCII digits are not modelled.) -/

def pyInt? (s : String) : Option ℤ :=
  match trimChars s.data with
  | '+' :: ds => (digitsToNat? ds).map fun n => (n : ℤ)
  | '-' :: ds => (digitsToNat? ds).map fun n => -(n : ℤ)
  | ds => (digitsToNat? ds).map fun n => (n : ℤ)

/-- Lines 123-128: `retry_after = 3600`, overwritten by
`int(response.headers['Retry-After'])` when the header is present and
parses; a `ValueError`/`TypeError` keeps the default. -/

def retryAfterValue (h : Option String) : ℤ :=
  match h with
  | none => 3600
  | some s =>
    match pyInt? s with
    | some v => v
    | none => 3600

/-- The observables of one `_make_request` call: the returned value (`None`
on every failure path), the number of HTTP attempts performed, the sleep
durations in order, and whether the 401/403 log-error-and-return path fired
(modelling the distinct `logger.error` calls of lines 131-140). -/

structure ReqResult (β : Type) where
  result : Option β
  attempts : ℕ
  sleeps : List ℤ
  authError : Bool
  deriving Repr, DecidableEq

/-- The `for attempt in range(retries)` loop of `_make_request`
(lines 117-152).  `net i` is the outcome of the `session.get` on attempt
`i`; `fuel` is the number of remaining iterations (initially `retries`,
with `attempt` starting at 0).  Falling out of the loop returns `None`
(line 152). -/

def mrLoop (net : ℕ → Outcome β) (retries : ℕ) : ℕ → ℕ → ReqResult β
  | _, 0 => { result := none, attempts := 0, sleeps := [], authError := false }
  | attempt, fuel + 1 =>
    match net attempt with
    | .exc =>
      -- lines 147-150: log the exception, back off `2 ** attempt` seconds
      -- unless this was the last attempt, continue the loop
      let rest := mrLoop net retries (attempt + 1) fuel
      { result := rest.result, attempts := rest.attempts + 1,
        sleeps := (if attempt < retries - 1 then [(2 : ℤ) ^ attempt] else []) ++ rest.sleeps,
        authError := rest.authError }
    | .resp status retryAfter body =>
      if status = 200 then
        -- line 120-121: `return await response.json()`
        { result := some body, attempts := 1, sleeps := [], authError := false }
      else if status = 429 then
        -- lines 122-130: sleep `retry_after`, continue the loop
        let rest := mrLoop net retries (attempt + 1) fuel
        { result := rest.result, attempts := rest.attempts + 1,
          sleeps := retryAfterValue retryAfter :: rest.sleeps,
          authError := rest.authError }
      else if status = 401 then
        -- lines 131-135: log Unauthorized, `return None`
        { result := none, attempts := 1, sleeps := [], authError := true }
      else if status = 403 then
        -- lines 136-140: log Forbidden, `return None`
        { result := none, attempts := 1, sleeps := [], authError := true }
      else
        -- lines 141-146: log, back off `2 ** attempt` unless last attempt
        let rest := mrLoop net retries (attempt + 1) fuel
        { result := rest.result, attempts := rest.attempts + 1,
          sleeps := (if attempt < retries - 1 then [(2 : ℤ) ^ attempt] else []) ++ rest.sleeps,
          authError := rest.authError }

structure MakeRequestOut (β : Type) where
  result : ReqResult β
  rateLimits : List (String × RateInfo)
  rateWaited : ℚ

/-- `_make_request` (lines 89-152): a single `_check_rate_limit(source)`
call (line 98) followed by the attempt loop.  Session initialization and
header assembly (lines 92-115) do not affect the modelled observables and
are omitted. -/

def makeRequest (limits : List (String × RateInfo)) (source : String) (now : ℚ)
    (net : ℕ → Outcome β) (retries : ℕ) : MakeRequestOut β :=
  let gate := checkRateLimitSource limits source now
  { result := mrLoop net retries 0 retries, rateLimits := gate.1, rateWaited := gate.2 }

/-! ### C1: behaviour on runs of 429 responses -/

/-- A network that answers each of the first `k` attempts with a 429
carrying header value `ra` (and ignored body `b0`), and every later attempt
with a 200 whose body is `b`. -/

def net429 (k : ℕ) (ra : Option String) (b0 b : β) : ℕ → Outcome β :=
  fun i => if i < k then .resp 429 ra b0 else .resp 200 none b

/-! ### C2: rate-limit budget consumption per attempt -/

/-- A network answering 500 on the first attempt and 200 (body 7) on the
second. -/

def netTwoAttempts : ℕ → Outcome ℕ :=
  fun i => if i = 0 then .resp 500 none 0 else .resp 200 none 7

/-! ### C5: 401/403 are terminal -/

/-- An attempt outcome on which the loop proceeds to the next attempt: a
raised exception, or a response whose status is none of 200/401/403. -/

def Outcome.continues : Outcome β → Prop
  | .exc => True
  | .resp s _ _ => s ≠ 200 ∧ s ≠ 401 ∧ s ≠ 403

/-- A 401 or 403 response. -/

def Outcome.isAuth : Outcome β → Prop
  | .exc => False
  | .resp s _ _ => s = 401 ∨ s = 403

/-- A network answering 500 on the first attempt and 403 afterwards. -/

def netAuth : ℕ → Outcome ℕ :=
  fun i => if i = 0 then .resp 500 none 0 else .resp 403 none 0

/-! ### Profiles, deduplication, pipeline ordering (C3, C6) -/

/-- An aggregated profile dict, restricted to the fields relevant to
deduplication and ordering.  A field's outer `Option` models dict-key
absence; the inner `Option` models a key present with value `None` (the
dicts built by `_search_github`, lines 195-216, always carry these keys but
may copy `None` values from the upstream payload). -/

structure Profile where
  name : Option (Option String)
  company : Option (Option String)
  bio : Option (Option String)
  founderPotential : ℚ
  deriving Repr, DecidableEq

/-- Rendering of `profile.get(field, '')` inside the f-string of line 436:
a missing key gives `''`, a `None` value renders as `"None"`, a string
renders as itself. -/

def fieldStr : Option (Option String) → String
  | none => ""
  | some none => "None"
  | some (some s) => s

/-- The identity key of line 436:
`f"{profile.get('name', '')}-{profile.get('company', '')}"`. -/

def dedupKey (p : Profile) : String :=
  fieldStr p.name ++ "-" ++ fieldStr p.company

/-- The loop of `_deduplicate_results` (lines 432-439), the `seen` set
modelled as the list of keys added so far. -/

def dedupGo (seen : List String) : List Profile → List Profile
  | [] => []
  | p :: rest =>
    if dedupKey p ∈ seen then dedupGo seen rest
    else p :: dedupGo (dedupKey p :: seen) rest

/-- `_deduplicate_results` (lines 430-441). -/

def deduplicateResults (profiles : List Profile) : List Profile :=
  dedupGo [] profiles

/-- From the spec's words (§4.7): keep, in original order, exactly the
first occurrence of each distinct identity key.  Used as the reference
description that `deduplicateResults` is proved to coincide with. -/

def firstOccByKey : List Profile → List Profile
  | [] => []
  | p :: rest =>
    p :: firstOccByKey (rest.filter fun q => dedupKey q != dedupKey p)
termination_by l => l.length
decreasing_by
  simp only [List.length_cons]
  exact Nat.lt_succ_of_le (List.length_filter_le _ rest)

/-- Stable insertion of a profile into a descending-sorted list: it goes in
front of the first element whose founder potential does not exceed its own.
Together with `sortByFounderDesc` this is the ordering produced by Python's
stable `sorted(..., key=lambda x: x['founder_potential'], reverse=True)`
(line 220): descending, ties kept in input order. -/

def insertByFounder (p : Profile) : List Profile → List Profile
  | [] => [p]
  | q :: rest =>
    if q.founderPotential ≤ p.founderPotential then p :: q :: rest
    else q :: insertByFounder p rest

/-- Line 220's sort, as a stable insertion sort. -/

def sortByFounderDesc : List Profile → List Profile
  | [] => []
  | p :: rest => insertByFounder p (sortByFounderDesc rest)

/-- `search_professional_profiles` (lines 154-164) as a function of the
profile list assembled in fetch order by `_search_github` (lines 177-217;
the network interaction that builds that list is parameterized away):
`_search_github` returns the list sorted by founder potential (line 220),
and `_deduplicate_results` is applied to that sorted list (line 164). -/

def searchProfessionalProfiles (fetched : List Profile) : List Profile :=
  deduplicateResults (sortByFounderDesc fetched)

/-- A single profile with a missing name and a `None` company, used as the
concrete input of the C6 witness. -/

def profileMissingFields : Profile :=
  { name := none, company := some none, bio := none, founderPotential := 1 }

/-- The earlier-fetched of two profiles sharing an identity key: lower
founder potential. -/

def profileFetchedFirst : Profile :=
  { name := some (some "x"), company := some (some "y"),
    bio := some (some "bio1"), founderPotential := 1 }

/-- The later-fetched of two profiles sharing an identity key: higher
founder potential. -/

def profileFetchedSecond : Profile :=
  { name := some (some "x"), company := some (some "y"),
    bio := some (some "bio2"), founderPotential := 5 }

/-! ### Python `datetime` model

`datetime` values are modelled as seconds since the Unix epoch (`ℤ`);
`datetime.now(timezone.utc)` is passed in as an explicit `now` parameter.
Civil-calendar conversions follow the standard `days_from_civil` /
`civil_from_days` algorithms. -/

/-- Days since the Unix epoch of a civil date. -/

def daysFromCivil (y m d : ℤ) : ℤ :=
  let y2 := if m ≤ 2 then y - 1 else y
  let era := Int.fdiv y2 400
  let yoe := y2 - era * 400
  let mp := if 2 < m then m - 3 else m + 9
  let doy := Int.fdiv (153 * mp + 2) 5 + d - 1
  let doe := yoe * 365 + Int.fdiv yoe 4 - Int.fdiv yoe 100 + doy
  era * 146097 + doe - 719468

/-- The civil year containing a given epoch-day count. -/

def yearFromDays (z0 : ℤ) : ℤ :=
  let z := z0 + 719468
  let era := Int.fdiv z 146097
  let doe := z - era * 146097
  let yoe := Int.fdiv (doe - Int.fdiv doe 1460 + Int.fdiv doe 36524 - Int.fdiv doe 146097) 365
  let y := yoe + era * 400
  let doy := doe - (365 * yoe + Int.fdiv yoe 4 - Int.fdiv yoe 100)
  let mp := Int.fdiv (5 * doy + 2) 153
  let m := if mp < 10 then mp + 3 else mp - 9
  if m ≤ 2 then y + 1 else y

/-- `datetime.now(timezone.utc).year`, for a `now` in epoch seconds. -/

def yearOfSecs (t : ℤ) : ℤ :=
  yearFromDays (Int.fdiv t 86400)

/-- `(a - b).days` of a `timedelta` between two datetimes in epoch seconds:
floor division of the second difference by 86400. -/

def diffDays (a b : ℤ) : ℤ :=
  Int.fdiv (a - b) 86400

/-- Gregorian leap year. -/

def isLeap (y : ℤ) : Bool :=
  (y % 4 = 0 ∧ y % 100 ≠ 0) ∨ y % 400 = 0

/-- Days in a month. -/

def daysInMonth (y m : ℤ) : ℤ :=
  if m = 2 then (if isLeap y then 29 else 28)
  else if m = 4 ∨ m = 6 ∨ m = 9 ∨ m = 11 then 30
  else 31

/-- Numeric value of an ASCII digit. -/

def digitVal (c : Char) : ℤ :=
  (c.toNat : ℤ) - 48

/-- `s.replace('Z', '+00:00')` (lines 327, 337, 400). -/

def replaceZ (cs : List Char) : List Char :=
  cs.foldr (fun c acc => (if c = 'Z' then ['+', '0', '0', ':', '0', '0'] else [c]) ++ acc) []

/-- Model of `datetime.fromisoformat`, restricted to the UTC shapes the
scraper feeds it: `YYYY-MM-DD`, optionally followed by `THH:MM:SS`,
optionally followed by a `+00:00` offset (the code first rewrites a
trailing `Z` to `+00:00`).  Returns epoch seconds; `none` models the raised
`ValueError`. -/

def pyFromIso : List Char → Option ℤ
  | y1 :: y2 :: y3 :: y4 :: '-' :: m1 :: m2 :: '-' :: d1 :: d2 :: rest =>
    if [y1, y2, y3, y4, m1, m2, d1, d2].all Char.isDigit then
      let y := 1000 * digitVal y1 + 100 * digitVal y2 + 10 * digitVal y3 + digitVal y4
      let m := 10 * digitVal m1 + digitVal m2
      let d := 10 * digitVal d1 + digitVal d2
      if 1 ≤ m ∧ m ≤ 12 ∧ 1 ≤ d ∧ d ≤ daysInMonth y m then
        match rest with
        | [] => some (86400 * daysFromCivil y m d)
        | 'T' :: h1 :: h2 :: ':' :: n1 :: n2 :: ':' :: s1 :: s2 :: rest2 =>
          if [h1, h2, n1, n2, s1, s2].all Char.isDigit then
            let hh := 10 * digitVal h1 + digitVal h2
            let nn := 10 * digitVal n1 + digitVal n2
            let ss := 10 * digitVal s1 + digitVal s2
            if hh ≤ 23 ∧ nn ≤ 59 ∧ ss ≤ 59 then
              match rest2 with
              | [] => some (86400 * daysFromCivil y m d + 3600 * hh + 60 * nn + ss)
              | '+' :: '0' :: '0' :: ':' :: '0' :: '0' :: [] =>
                some (86400 * daysFromCivil y m d + 3600 * hh + 60 * nn + ss)
              | _ => none
            else none
          else none
        | _ => none
      else none
    else none
  | _ => none

/-- `d.get(key, '')` followed by a string method call: a missing key yields
`''`; a key present with value `None` raises (`none` here, modelling the
`AttributeError` from e.g. `None.replace(...)` or `None.lower()`);
otherwise the string itself. -/

def getStrField : Option (Option String) → Option String
  | none => some ""
  | some none => none
  | some (some s) => some s

/-- `d.get(key, '')` used as a plain value (no method call): a missing key
yields `''`; a `None` value is stored as-is. -/

def getFieldValue : Option (Option String) → Option String
  | none => some ""
  | some v => v

/-- ASCII `str.lower()` (non-ASCII case mapping not modelled). -/

def lowerChars (cs : List Char) : List Char :=
  cs.map Char.toLower

/-- Round half to even (Python `round`; binary-float artifacts are not
modelled). -/

def roundHalfEven (x : ℚ) : ℤ :=
  let f := ⌊x⌋
  let r := x - (f : ℚ)
  if r < 1 / 2 then f
  else if 1 / 2 < r then f + 1
  else if f % 2 = 0 then f else f + 1

/-- Python `round(x, 1)` (line 343). -/

def pyRound1 (q : ℚ) : ℚ :=
  (roundHalfEven (q * 10) : ℚ) / 10

/-- Python `int(x)` on a number: truncation toward zero (line 363). -/

def pyTrunc (q : ℚ) : ℤ :=
  if q < 0 then -⌊-q⌋ else ⌊q⌋

/-- `f"{x:.1f}"` (line 362), approximated as exact decimal rounding of the
rational.  No claim depends on the digits produced here, only on the
success path producing this formatted string rather than `"N/A"`. -/

def format1f (q : ℚ) : String :=
  let m := roundHalfEven (|q| * 10)
  (if q < 0 then "-" else "") ++ toString (Int.fdiv m 10) ++ "." ++ toString (m % 10)

/-! ### Age estimation and scoring (`_calculate_age_info`,
`_calculate_age_score`, `_calculate_technical_score`) -/

/-- A repository dict, restricted to the fields the scraper reads.
`stars`/`forks` model `stargazers_count`/`forks_count` read with
`.get(..., 0)` (a `None` value there is not modelled). -/

structure Repo where
  name : Option (Option String)
  createdAt : Option (Option String)
  language : Option (Option String)
  stars : Option ℤ
  forks : Option ℤ
  deriving Repr, DecidableEq

/-- An entry of the `early_achievements` list (lines 340-344). -/

structure Achievement where
  name : Option String
  stars : ℤ
  createdAfterYears : ℚ
  deriving Repr, DecidableEq

/-- A user-detail dict, restricted to the fields the scraper reads. -/

structure UserData where
  createdAt : Option (Option String)
  bio : Option (Option String)
  followers : Option ℤ
  following : Option ℤ
  deriving Repr, DecidableEq

/-- The dict returned by `_calculate_age_info`. -/

structure AgeInfo where
  accountAge : String
  estimatedAge : Option ℤ
  earlyAchievements : List Achievement
  deriving Repr, DecidableEq

/-- Stable insertion for `sorted(repos, key=lambda x:
x.get('stargazers_count', 0), reverse=True)` (line 335). -/

def insertRepoByStars (r : Repo) : List Repo → List Repo
  | [] => [r]
  | q :: rest =>
    if q.stars.getD 0 ≤ r.stars.getD 0 then r :: q :: rest
    else q :: insertRepoByStars r rest

/-- Line 335's sort, as a stable insertion sort. -/

def sortReposByStars : List Repo → List Repo
  | [] => []
  | r :: rest => insertRepoByStars r (sortReposByStars rest)

/-- One iteration of the loop over the top repos (lines 336-344): `none`
models the exception raised when the repo's `created_at` is `None` or
unparseable; otherwise possibly an achievement. -/

def achievementOf (created : ℤ) (r : Repo) : Option (Option Achievement) := do
  let cs ← getStrField r.createdAt
  let rc ← pyFromIso (replaceZ cs.data)
  let repoAge : ℚ := (diffDays rc created : ℚ) / (365.25 : ℚ)
  pure (if repoAge ≤ 2 ∧ 50 ≤ r.stars.getD 0 then
      some { name := getFieldValue r.name, stars := r.stars.getD 0,
             createdAfterYears := pyRound1 repoAge }
    else none)

/-- The loop of lines 336-344 over a repo list. -/

def achievementsLoop (created : ℤ) : List Repo → Option (List Achievement)
  | [] => some []
  | r :: rest => do
    let a ← achievementOf created r
    let rest2 ← achievementsLoop created rest
    pure (match a with | some x => x :: rest2 | none => rest2)

/-- Lines 332-344: `early_achievements` stays empty when `repos` is empty,
otherwise the loop runs over the top three repos by stars. -/

def earlyAchievements (created : ℤ) (repos : List Repo) : Option (List Achievement) :=
  match repos with
  | [] => some []
  | _ => achievementsLoop created ((sortReposByStars repos).take 3)

/-- One attempt to match the regex `class of (20\d{2})` (line 351) at the
head of the (already lowercased) text. -/

def classOf20At : List Char → Option ℤ
  | 'c' :: 'l' :: 'a' :: 's' :: 's' :: ' ' :: 'o' :: 'f' :: ' ' :: '2' :: '0' :: a :: b :: _ =>
    if a.isDigit ∧ b.isDigit then some (2000 + 10 * digitVal a + digitVal b) else none
  | _ => none

/-- `re.search(r'class of (20\d{2})', bio)` (line 351): the leftmost
match's captured year. -/

def searchClassOf20 : List Char → Option ℤ
  | [] => none
  | c :: rest =>
    match classOf20At (c :: rest) with
    | some y => some y
    | none => searchClassOf20 rest

/-- From the claim's words: one attempt to match "class of YYYY" for an
arbitrary four-digit year at the head of the text. -/

def classOfAnyAt : List Char → Option ℤ
  | 'c' :: 'l' :: 'a' :: 's' :: 's' :: ' ' :: 'o' :: 'f' :: ' ' :: a :: b :: c :: d :: _ =>
    if a.isDigit ∧ b.isDigit ∧ c.isDigit ∧ d.isDigit then
      some (1000 * digitVal a + 100 * digitVal b + 10 * digitVal c + digitVal d)
    else none
  | _ => none

/-- From the claim's words: leftmost "class of YYYY" with an arbitrary
four-digit year. -/

def searchClassOfAny : List Char → Option ℤ
  | [] => none
  | c :: rest =>
    match classOfAnyAt (c :: rest) with
    | some y => some y
    | none => searchClassOfAny rest

/-- The `try` body of `_calculate_age_info` (lines 326-365); `none` models
an exception escaping to the `except` arm. -/

def ageInfoTry (user : UserData) (repos : List Repo) (now : ℤ) : Option AgeInfo := do
  let cs ← getStrField user.createdAt
  let created ← pyFromIso (replaceZ cs.data)
  let accountYears : ℚ := (diffDays now created : ℚ) / (365.25 : ℚ)
  let eas ← earlyAchievements created repos
  let bs ← getStrField user.bio
  let bio := lowerChars bs.data
  -- lines 350-354: `estimated_age = now.year - grad_year + 22` on a match
  let gradAge : Option ℤ := (searchClassOf20 bio).map fun g => yearOfSecs now - g + 22
  -- line 357: `if not estimated_age:` — `None` and the falsy 0 both fall back
  let estimated : ℚ :=
    match gradAge with
    | some v => if v = 0 then max (16 + accountYears) 16 else (v : ℚ)
    | none => max (16 + accountYears) 16
  pure { accountAge := format1f accountYears ++ " years",
         estimatedAge := some (pyTrunc estimated),
         earlyAchievements := eas }

/-- `_calculate_age_info` (lines 324-373): the `try` body with the
`except` arm returning the degraded record (lines 367-373). -/

def calculateAgeInfo (user : UserData) (repos : List Repo) (now : ℤ) : AgeInfo :=
  match ageInfoTry user repos now with
  | some info => info
  | none => { accountAge := "N/A", estimatedAge := none, earlyAchievements := [] }

/-- `_calculate_age_score` (lines 397-419). -/

def calculateAgeScore (user : UserData) (now : ℤ) : ℚ :=
  let tryRes : Option ℚ := do
    let cs ← getStrField user.createdAt
    let created ← pyFromIso (replaceZ cs.data)
    let accountAge : ℚ := (diffDays now created : ℚ) / (365.25 : ℚ)
    let estimated := 16 + accountAge
    let s : ℚ :=
      if estimated < 25 then 0.7 + (estimated - 16) * 0.03
      else if estimated ≤ 35 then 1 - (estimated - 25) * 0.03
      else 0.7 - (estimated - 35) * 0.02
    pure (max 0 (min (s * 10) 10))
  match tryRes with
  | some v => v
  | none => 5

/-- The dict returned by `_calculate_technical_score` (lines 316-322). -/

structure Scores where
  technicalScore : ℚ
  innovationScore : ℚ
  collaborationScore : ℚ
  ageScore : ℚ
  founderPotential : ℚ
  deriving Repr, DecidableEq

/-- `contributions['frequency'] in ['high', 'very_high']`. -/

def freqIsHigh (freq : String) : Bool :=
  freq = "high" ∨ freq = "very_high"

/-- The dedented `for repo in repos:` loop of lines 283-307.  In the source
this loop — not the `if repos:` block — carries both the language-set
accumulation and the assignments of the three sub-scores, so the scores
keep their initial `0.0` when `repos` is empty and otherwise take the
values assigned on the final iteration (by then the language set is
complete, so the final values agree with the spec's formulas). -/

def scoreLoop (totalStars totalForks : ℤ) (repoCount : ℕ) (followers following : ℤ)
    (freq : String) : List String → (ℚ × ℚ × ℚ) → List Repo → (ℚ × ℚ × ℚ)
  | _, acc, [] => acc
  | langs, _, r :: rest =>
    let langs2 :=
      match r.language with
      | some (some l) => if l = "" then langs else if l ∈ langs then langs else langs ++ [l]
      | _ => langs
    let tech := min 1 (((totalStars : ℚ) * 0.3) / 100 + ((totalForks : ℚ) * 0.2) / 50
      + ((langs2.length : ℚ) * 0.2) / 5 + ((repoCount : ℚ) * 0.3) / 20)
    let innov := min 1 (((totalStars : ℚ) * 0.4) / 100 + ((totalForks : ℚ) * 0.3) / 50
      + (if freqIsHigh freq then 0.3 else 0.1))
    let collab := min 1 (((followers : ℚ) * 0.4) / 500 + ((following : ℚ) * 0.2) / 200
      + (if freqIsHigh freq then 0.4 else 0.2))
    scoreLoop totalStars totalForks repoCount followers following freq
      langs2 (tech, innov, collab) rest

/-- `_calculate_technical_score` (lines 267-322). -/

def calculateTechnicalScore (user : UserData) (repos : List Repo) (freq : String)
    (now : ℤ) : Scores :=
  let totalStars := (repos.map fun r => r.stars.getD 0).sum
  let totalForks := (repos.map fun r => r.forks.getD 0).sum
  let res := scoreLoop totalStars totalForks repos.length (user.followers.getD 0)
    (user.following.getD 0) freq [] (0, 0, 0) repos
  let founder := res.1 * 0.4 + res.2.1 * 0.3 + res.2.2 * 0.3
  { technicalScore := res.1 * 10, innovationScore := res.2.1 * 10,
    collaborationScore := res.2.2 * 10, ageScore := calculateAgeScore user now,
    founderPotential := founder * 10 }

/-- The concrete user of the C9 witness: valid creation timestamp, `bio`
key present with value `None`. -/

def userNullBio : UserData :=
  { createdAt := some (some "2016-10-12T00:00:00Z"), bio := some none,
    followers := some 0, following := some 0 }

/-- The current instant of the C8 scenarios: 2026-10-12T00:00:00 UTC. -/

def nowOct2026 : ℤ := 86400 * daysFromCivil 2026 10 12

/-- The C8 counterexample user: account created 2016-10-12, bio
`class of 1999`. -/

def userClassOf1999 : UserData :=
  { createdAt := some (some "2016-10-12T00:00:00Z"),
    bio := some (some "class of 1999"), followers := some 0, following := some 0 }

/-- The C8-amended witness user: account created 2016-10-12, bio
`Class of 2020` (exercising the case-insensitivity). -/

def userClassOf2020 : UserData :=
  { createdAt := some (some "2016-10-12T00:00:00Z"),
    bio := some (some "Class of 2020"), followers := some 0, following := some 0 }

lemma lookup_eq_none_of_keys (limits : List (String × RateInfo)) (source : String)
    (hkeys : ∀ p ∈ limits, p.1 = "github") (hs : source ≠ "github") :
    limits.lookup source = none := by
  induction limits with
  | nil => rfl
  | cons p rest ih =>
    obtain ⟨k, v⟩ := p
    have hk : k = "github" := hkeys (k, v) (List.mem_cons_self _ _)
    have : (source == k) = false := by
      subst hk
      exact beq_false_of_ne hs
    simp only [List.lookup, this]
    exact ih fun q hq => hkeys q (List.mem_cons_of_mem _ hq)

/-- C4: `_check_rate_limit` never lets `calls` exceed the limit within a
window; when more than 3600 s have elapsed it resets the window; when the
limit is reached within a live window it waits out the remainder and resets;
and in the ordinary case it increments `calls` by exactly one.  Stated for
windows with the program's configured limit (4500, line 55). -/
theorem checkRateLimit_invariant (r : RateInfo) (now : ℚ) (hl : r.limit = 4500) :
    ((checkRateLimit r now).1.calls ≤ r.limit)
    ∧ (3600 < now - r.resetTime →
        (checkRateLimit r now).1 = { calls := 1, resetTime := now, limit := r.limit }
        ∧ (checkRateLimit r now).2 = 0)
    ∧ (now - r.resetTime < 3600 → r.limit ≤ r.calls →
        (checkRateLimit r now).2 = 3600 - (now - r.resetTime)
        ∧ (checkRateLimit r now).1 =
            { calls := 1, resetTime := now + (3600 - (now - r.resetTime)), limit := r.limit })
    ∧ (now - r.resetTime < 3600 → r.calls < r.limit →
        (checkRateLimit r now).1 = { r with calls := r.calls + 1 }
        ∧ (checkRateLimit r now).2 = 0) := by
  unfold checkRateLimit
  refine ⟨?_, ?_, ?_, ?_⟩
  · simp only []
    split_ifs with h1 h2 h3 h4 h5 <;> simp <;> first | omega | (exfalso; linarith)
  · intro h
    have h1 : (3600 : ℚ) ≤ now - r.resetTime := le_of_lt h
    simp only [if_pos h1]
    have h2 : ¬ ((4500 : ℤ) ≤ 0) := by norm_num
    simp [hl, h2]
  · intro h hcalls
    have h1 : ¬ ((3600 : ℚ) ≤ now - r.resetTime) := not_le.mpr h
    simp only [if_neg h1]
    have h2 : (0 : ℚ) < 3600 - (now - r.resetTime) := by linarith
    simp [hcalls, h2]
  · intro h hcalls
    have h1 : ¬ ((3600 : ℚ) ≤ now - r.resetTime) := not_le.mpr h
    have h2 : ¬ (r.limit ≤ r.calls) := not_le.mpr hcalls
    simp [h1, h2]

/-- Witness for C4 at a concrete window state. -/
theorem checkRateLimit_invariant_witness :
    (({ calls := 4500, resetTime := 0, limit := 4500 } : RateInfo).limit = 4500)
    ∧ (((checkRateLimit { calls := 4500, resetTime := 0, limit := 4500 } 100).1.calls ≤ 4500)
      ∧ ((3600 : ℚ) < 100 - 0 →
          (checkRateLimit { calls := 4500, resetTime := 0, limit := 4500 } 100).1 =
            { calls := 1, resetTime := 100, limit := 4500 }
          ∧ (checkRateLimit { calls := 4500, resetTime := 0, limit := 4500 } 100).2 = 0)
      ∧ ((100 : ℚ) - 0 < 3600 → (4500 : ℤ) ≤ 4500 →
          (checkRateLimit { calls := 4500, resetTime := 0, limit := 4500 } 100).2 = 3600 - (100 - 0)
          ∧ (checkRateLimit { calls := 4500, resetTime := 0, limit := 4500 } 100).1 =
              { calls := 1, resetTime := 100 + (3600 - (100 - 0)), limit := 4500 })
      ∧ ((100 : ℚ) - 0 < 3600 → (4500 : ℤ) < 4500 →
          (checkRateLimit { calls := 4500, resetTime := 0, limit := 4500 } 100).1 =
            { calls := 4500 + 1, resetTime := 0, limit := 4500 }
          ∧ (checkRateLimit { calls := 4500, resetTime := 0, limit := 4500 } 100).2 = 0)) :=
  ⟨rfl, checkRateLimit_invariant { calls := 4500, resetTime := 0, limit := 4500 } 100 rfl⟩

/-- C10: for any source other than `"github"`, `_check_rate_limit` returns
immediately: no wait and no state change, because only `"github"` has a
rate-limit window (lines 53-56 and 67-68).  The hypothesis says every key of
the dict is `"github"`, which holds of every reachable state of the program. -/
theorem checkRateLimitSource_other (limits : List (String × RateInfo))
    (source : String) (now : ℚ)
    (hkeys : ∀ p ∈ limits, p.1 = "github") (hs : source ≠ "github") :
    checkRateLimitSource limits source now = (limits, 0) := by
  unfold checkRateLimitSource
  rw [lookup_eq_none_of_keys limits source hkeys hs]

/-- Witness for C10 at the program's initial state and source `"linkedin"`. -/
theorem checkRateLimitSource_other_witness :
    (∀ p ∈ initRateLimits 0, p.1 = "github") ∧ "linkedin" ≠ "github"
    ∧ checkRateLimitSource (initRateLimits 0) "linkedin" 5 = (initRateLimits 0, 0) := by
  refine ⟨?_, ?_, ?_⟩
  · intro p hp
    simp only [initRateLimits, List.mem_singleton] at hp
    rw [hp]
  · decide
  · exact checkRateLimitSource_other (initRateLimits 0) "linkedin" 5
      (fun p hp => by simp only [initRateLimits, List.mem_singleton] at hp; rw [hp])
      (by decide)

lemma mrLoop_net429_aux (k : ℕ) (ra : Option String) (b0 b : β) (retries : ℕ) :
    ∀ fuel attempt, attempt ≤ k →
      mrLoop (net429 k ra b0 b) retries attempt fuel =
        if k - attempt < fuel then
          { result := some b, attempts := (k - attempt) + 1,
            sleeps := List.replicate (k - attempt) (retryAfterValue ra), authError := false }
        else
          { result := none, attempts := fuel,
            sleeps := List.replicate fuel (retryAfterValue ra), authError := false } := by
  intro fuel
  induction fuel with
  | zero =>
    intro attempt _
    simp [mrLoop]
  | succ f ih =>
    intro attempt hle
    rcases Nat.lt_or_ge attempt k with hlt | hge
    · have hnet : net429 k ra b0 b attempt = .resp 429 ra b0 := by
        simp [net429, hlt]
      have hrec := ih (attempt + 1) hlt
      simp only [mrLoop, hnet]
      norm_num
      rw [hrec]
      rcases Nat.lt_or_ge (k - (attempt + 1)) f with hf | hf
      · rw [if_pos hf, if_pos (by omega)]
        have h1 : k - attempt = (k - (attempt + 1)) + 1 := by omega
        simp [h1, List.replicate_succ]
      · rw [if_neg (by omega), if_neg (by omega)]
        simp [List.replicate_succ]
    · have heq : attempt = k := le_antisymm hle hge
      have hnet : net429 k ra b0 b attempt = .resp 200 none b := by
        simp [net429, heq]
      simp only [mrLoop, hnet]
      norm_num
      rw [if_pos (by omega)]
      have h0 : k - attempt = 0 := by omega
      simp [h0]

/-- C1 (counterexample): with the default `retries = 3`, a run of three 429
responses followed by a 200 does **not** return the 200's body — each 429
consumes a loop attempt, so the loop exhausts its attempts and returns
`None`. -/
theorem c1_429_counterexample :
    (makeRequest (initRateLimits 0) "github" 0 (net429 3 none 0 (7 : ℕ)) 3).result.result
      = none := by
  rfl

/-- C1 (amended): a 429 response sleeps for the `Retry-After` duration
(default 3600 s when the header is absent or unparseable) and then proceeds
to the **next** attempt, consuming a retry slot like any other failure; a
run of `k` 429s followed by a 200 returns the 200's body through `k + 1`
attempts iff `k < retries`, and otherwise the call performs `retries`
attempts and returns `None`. -/
theorem mrLoop_429_run (retries k : ℕ) (ra : Option String) (b0 b : β) :
    (mrLoop (net429 k ra b0 b) retries 0 retries =
      if k < retries then
        { result := some b, attempts := k + 1,
          sleeps := List.replicate k (retryAfterValue ra), authError := false }
      else
        { result := none, attempts := retries,
          sleeps := List.replicate retries (retryAfterValue ra), authError := false })
    ∧ retryAfterValue none = 3600
    ∧ (∀ s : String, pyInt? s = none → retryAfterValue (some s) = 3600) := by
  refine ⟨?_, rfl, ?_⟩
  · have h := mrLoop_net429_aux k ra b0 b retries retries 0 (Nat.zero_le k)
    simpa using h
  · intro s hs
    simp [retryAfterValue, hs]

/-- Witness for C1 (amended) at a concrete run: two 429s with an
unparseable `Retry-After` header, then a 200. -/
theorem mrLoop_429_run_witness :
    pyInt? "soon" = none
    ∧ retryAfterValue (some "soon") = 3600
    ∧ mrLoop (net429 2 (some "soon") 0 (7 : ℕ)) 3 0 3 =
        { result := some 7, attempts := 3, sleeps := [3600, 3600], authError := false } := by
  have hp : pyInt? "soon" = none := by decide
  have h := mrLoop_429_run 3 2 (some "soon") (0 : ℕ) 7
  refine ⟨hp, h.2.2 "soon" hp, ?_⟩
  have h1 := h.1
  rw [if_pos (by norm_num)] at h1
  rw [h1, h.2.2 "soon" hp]
  rfl

/-- C2 (counterexample): a `_make_request` call that performs two HTTP
attempts (a 500 then a 200) increments the `github` counter only once —
`_check_rate_limit` runs once per call (line 98), before the loop, not once
per attempt. -/
theorem c2_counter_counterexample :
    ((makeRequest (initRateLimits 0) "github" 0 netTwoAttempts 3).result.attempts = 2)
    ∧ ((makeRequest (initRateLimits 0) "github" 0 netTwoAttempts 3).rateLimits.lookup "github"
        = some { calls := 1, resetTime := 0, limit := 4500 })
    ∧ ¬ ((1 : ℤ) = 0 + 2) := by
  refine ⟨rfl, ?_, by decide⟩
  norm_num [makeRequest, checkRateLimitSource, initRateLimits, checkRateLimit,
    updateAssoc, List.lookup]

/-- C2 (amended): the shared rate-limit counter is incremented exactly once
per `_make_request` call, before the first attempt, independently of the
network outcomes and of the number of attempts performed: within a live
window with room, the `github` window's `calls` rises by exactly one and no
wait occurs. -/
theorem makeRequest_counter_once (limits : List (String × RateInfo)) (now : ℚ)
    (net : ℕ → Outcome β) (retries : ℕ) (r : RateInfo)
    (hr : limits.lookup "github" = some r)
    (hfresh : now - r.resetTime < 3600) (hroom : r.calls < r.limit) :
    (makeRequest limits "github" now net retries).rateLimits =
      updateAssoc "github" { r with calls := r.calls + 1 } limits
    ∧ (makeRequest limits "github" now net retries).rateWaited = 0 := by
  have hgate : checkRateLimit r now = ({ r with calls := r.calls + 1 }, 0) := by
    simp only [checkRateLimit]
    rw [if_neg (not_le.mpr hfresh), if_neg (not_le.mpr hroom)]
  simp only [makeRequest, checkRateLimitSource]
  rw [hr]
  simp [hgate]

/-- Witness for C2 (amended): at the initial state, any network, two
different retry budgets — the counter always ends at 1. -/
theorem makeRequest_counter_once_witness :
    ((initRateLimits 0).lookup "github" = some { calls := 0, resetTime := 0, limit := 4500 })
    ∧ ((5 : ℚ) - 0 < 3600) ∧ ((0 : ℤ) < 4500)
    ∧ (makeRequest (initRateLimits 0) "github" 5 netTwoAttempts 3).rateLimits =
        updateAssoc "github" { calls := 0 + 1, resetTime := 0, limit := 4500 } (initRateLimits 0)
    ∧ (makeRequest (initRateLimits 0) "github" 5 netTwoAttempts 3).rateWaited = 0 := by
  have h := makeRequest_counter_once (initRateLimits 0) 5 netTwoAttempts 3
    { calls := 0, resetTime := 0, limit := 4500 } (by decide) (by norm_num) (by decide)
  exact ⟨by decide, by norm_num, by decide, h.1, h.2⟩

lemma mrLoop_auth_aux (net : ℕ → Outcome β) (retries : ℕ) :
    ∀ (j fuel attempt : ℕ), j < fuel →
      (∀ i, i < j → (net (attempt + i)).continues) →
      (net (attempt + j)).isAuth →
      (mrLoop net retries attempt fuel).result = none
      ∧ (mrLoop net retries attempt fuel).attempts = j + 1
      ∧ (mrLoop net retries attempt fuel).authError = true := by
  intro j
  induction j with
  | zero =>
    intro fuel attempt hj hcont hauth
    obtain ⟨f, rfl⟩ : ∃ f, fuel = f + 1 := ⟨fuel - 1, by omega⟩
    rw [Nat.add_zero] at hauth
    match hnet : net attempt with
    | .exc =>
      rw [hnet] at hauth
      exact absurd hauth (by simp [Outcome.isAuth])
    | .resp s ra b =>
      rw [hnet] at hauth
      have hs : s = 401 ∨ s = 403 := hauth
      simp only [mrLoop, hnet]
      rcases hs with h | h <;> subst h <;> norm_num
  | succ j ih =>
    intro fuel attempt hj hcont hauth
    obtain ⟨f, rfl⟩ : ∃ f, fuel = f + 1 := ⟨fuel - 1, by omega⟩
    have h0 : (net attempt).continues := by
      have h := hcont 0 (Nat.succ_pos j)
      simpa using h
    have hcont2 : ∀ i, i < j → (net (attempt + 1 + i)).continues := by
      intro i hi
      have h2 : attempt + 1 + i = attempt + (i + 1) := by omega
      rw [h2]
      exact hcont (i + 1) (by omega)
    have hauth2 : (net (attempt + 1 + j)).isAuth := by
      have h2 : attempt + 1 + j = attempt + (j + 1) := by omega
      rw [h2]
      exact hauth
    have hrec := ih f (attempt + 1) (by omega) hcont2 hauth2
    match hnet : net attempt with
    | .exc =>
      simp only [mrLoop, hnet]
      exact ⟨hrec.1, by simp [hrec.2.1], hrec.2.2⟩
    | .resp s ra b =>
      rw [hnet] at h0
      obtain ⟨hs200, hs401, hs403⟩ := h0
      by_cases h429 : s = 429
      · subst h429
        simp only [mrLoop, hnet]
        norm_num
        exact ⟨hrec.1, by simp [hrec.2.1], hrec.2.2⟩
      · simp only [mrLoop, hnet, if_neg hs200, if_neg h429, if_neg hs401, if_neg hs403]
        exact ⟨hrec.1, by simp [hrec.2.1], hrec.2.2⟩

/-- C5: when attempt `j` of `_make_request` receives a 401 or 403 (after
`j` earlier attempts that kept the loop going), the call is terminal: it
takes the distinct Unauthorized/Forbidden log-error path and returns `None`
immediately, performing no further attempt — exactly `j + 1` HTTP attempts
happen in total. -/
theorem mrLoop_auth_terminal (net : ℕ → Outcome β) (retries j : ℕ)
    (hj : j < retries)
    (hcont : ∀ i, i < j → (net i).continues)
    (hauth : (net j).isAuth) :
    (mrLoop net retries 0 retries).result = none
    ∧ (mrLoop net retries 0 retries).attempts = j + 1
    ∧ (mrLoop net retries 0 retries).authError = true := by
  have h := mrLoop_auth_aux net retries j retries 0 hj
    (by simpa using hcont) (by simpa using hauth)
  exact h

/-- Witness for C5: a 500 then a 403 — the call stops right after the 403,
with two attempts in total. -/
theorem mrLoop_auth_terminal_witness :
    (1 < 3) ∧ Outcome.isAuth (netAuth 1)
    ∧ (mrLoop netAuth 3 0 3).result = none
    ∧ (mrLoop netAuth 3 0 3).attempts = 1 + 1
    ∧ (mrLoop netAuth 3 0 3).authError = true := by
  have hcont : ∀ i, i < 1 → (netAuth i).continues := by
    intro i hi
    have h0 : i = 0 := by omega
    subst h0
    simp [netAuth, Outcome.continues]
  have hauth : (netAuth 1).isAuth := by simp [netAuth, Outcome.isAuth]
  have h := mrLoop_auth_terminal netAuth 3 1 (by norm_num) hcont hauth
  exact ⟨by norm_num, hauth, h.1, h.2.1, h.2.2⟩

lemma dedupGo_eq_firstOccByKey (seen : List String) (l : List Profile) :
    dedupGo seen l = firstOccByKey (l.filter fun q => decide (dedupKey q ∉ seen)) := by
  induction l generalizing seen with
  | nil => simp [dedupGo, firstOccByKey]
  | cons p rest ih =>
    by_cases hp : dedupKey p ∈ seen
    · rw [dedupGo, if_pos hp, List.filter_cons, if_neg (by simp [hp])]
      exact ih seen
    · rw [dedupGo, if_neg hp, List.filter_cons, if_pos (by simp [hp]), firstOccByKey]
      have hf : (rest.filter fun a => (dedupKey a != dedupKey p) && decide (dedupKey a ∉ seen))
          = rest.filter fun q => decide (dedupKey q ∉ dedupKey p :: seen) := by
        apply List.filter_congr
        intro q _
        by_cases h1 : dedupKey q = dedupKey p <;> by_cases h2 : dedupKey q ∈ seen <;>
          simp [h1, h2]
      rw [ih (dedupKey p :: seen), List.filter_filter, hf]

lemma deduplicateResults_eq_firstOccByKey (l : List Profile) :
    deduplicateResults l = firstOccByKey l := by
  have h := dedupGo_eq_firstOccByKey [] l
  simpa [deduplicateResults] using h

lemma mem_insertByFounder {b p : Profile} {l : List Profile} :
    b ∈ insertByFounder p l ↔ b = p ∨ b ∈ l := by
  induction l with
  | nil => simp [insertByFounder]
  | cons q rest ih =>
    rw [insertByFounder]
    split_ifs with h
    · simp only [List.mem_cons]
    · simp only [List.mem_cons, ih]
      tauto

lemma insertByFounder_pairwise (p : Profile) (l : List Profile)
    (hl : l.Pairwise fun a b => b.founderPotential ≤ a.founderPotential) :
    (insertByFounder p l).Pairwise fun a b => b.founderPotential ≤ a.founderPotential := by
  induction l with
  | nil => simp [insertByFounder]
  | cons q rest ih =>
    rw [List.pairwise_cons] at hl
    obtain ⟨hq, hrest⟩ := hl
    rw [insertByFounder]
    split_ifs with h
    · refine List.pairwise_cons.mpr ⟨?_, List.pairwise_cons.mpr ⟨hq, hrest⟩⟩
      intro b hb
      rcases List.mem_cons.mp hb with rfl | hb2
      · exact h
      · exact le_trans (hq b hb2) h
    · refine List.pairwise_cons.mpr ⟨?_, ih hrest⟩
      intro b hb
      rcases mem_insertByFounder.mp hb with rfl | hb2
      · exact le_of_lt (not_le.mp h)
      · exact hq b hb2

lemma sortByFounderDesc_pairwise (l : List Profile) :
    (sortByFounderDesc l).Pairwise fun a b => b.founderPotential ≤ a.founderPotential := by
  induction l with
  | nil => simp [sortByFounderDesc]
  | cons p rest ih => exact insertByFounder_pairwise p _ ih

lemma firstOccByKey_sublist (l : List Profile) : (firstOccByKey l).Sublist l := by
  induction l using firstOccByKey.induct with
  | case1 => simp [firstOccByKey]
  | case2 p rest ih =>
    rw [firstOccByKey]
    exact (ih.trans (List.filter_sublist rest)).cons₂ p

/-- C6 (counterexample): the identity key is the hyphen-join
`f"{name}-{company}"`, so the distinct field pairs `("a-b", "c")` and
`("a", "b-c")` collide — the second profile is discarded although both its
`name` and its `company` differ from the first's, refuting the claimed
"if and only if". -/
theorem c6_dedup_counterexample :
    deduplicateResults
        [{ name := some (some "a-b"), company := some (some "c"),
           bio := some (some "bio1"), founderPotential := 0 },
         { name := some (some "a"), company := some (some "b-c"),
           bio := some (some "bio2"), founderPotential := 0 }]
      = [{ name := some (some "a-b"), company := some (some "c"),
           bio := some (some "bio1"), founderPotential := 0 }]
    ∧ (some (some "a-b") : Option (Option String)) ≠ some (some "a")
    ∧ (some (some "c") : Option (Option String)) ≠ some (some "b-c") := by
  refine ⟨?_, by decide, by decide⟩
  have hk : ("a" ++ "-" ++ "b-c" : String) = "a-b" ++ "-" ++ "c" := by decide
  norm_num [deduplicateResults, dedupGo, dedupKey, fieldStr, hk]

/-- C6 (amended): `_deduplicate_results` retains, in original order,
exactly the first occurrence of each distinct joined key
`f"{name}-{company}"` (empty string for a missing field): two profiles are
collapsed exactly when their joined keys coincide — which is implied by,
but (because of the hyphen join) not equivalent to, componentwise equality
of the `name` and `company` fields. -/
theorem deduplicateResults_spec (l : List Profile) :
    deduplicateResults l = firstOccByKey l
    ∧ ∀ p q : Profile, p.name = q.name → p.company = q.company →
        dedupKey p = dedupKey q := by
  refine ⟨deduplicateResults_eq_firstOccByKey l, ?_⟩
  intro p q h1 h2
  rw [dedupKey, dedupKey, h1, h2]

/-- Witness for C6 (amended) at a one-element list with a missing name and
a `None` company. -/
theorem deduplicateResults_spec_witness :
    deduplicateResults [profileMissingFields] = firstOccByKey [profileMissingFields]
    ∧ dedupKey profileMissingFields = dedupKey profileMissingFields := by
  have h := deduplicateResults_spec [profileMissingFields]
  exact ⟨h.1, h.2 _ _ rfl rfl⟩

/-- C3 (counterexample): two fetched profiles with the same identity key,
the earlier one (`bio1`) with the lower founder potential.  The pipeline
keeps the **later** fetched profile (`bio2`), because line 220 sorts before
line 164 deduplicates — refuting "the one occurring earlier in fetch order
is the one retained". -/
theorem c3_order_counterexample :
    searchProfessionalProfiles [profileFetchedFirst, profileFetchedSecond]
      = [profileFetchedSecond]
    ∧ dedupKey profileFetchedFirst = dedupKey profileFetchedSecond
    ∧ profileFetchedFirst ≠ profileFetchedSecond := by
  refine ⟨?_, rfl, ?_⟩
  · norm_num [searchProfessionalProfiles, sortByFounderDesc, insertByFounder,
      deduplicateResults, dedupGo, dedupKey, fieldStr,
      profileFetchedFirst, profileFetchedSecond]
  · intro h
    have hb := congrArg Profile.bio h
    simp [profileFetchedFirst, profileFetchedSecond] at hb

/-- C3 (amended): the pipeline sorts **first** (inside `_search_github`,
line 220, stable descending by founder potential with fetch order breaking
ties) and deduplicates **second** (line 164); hence of two fetched profiles
sharing a key the retained one is the first in sorted order — the one with
the higher founder potential — and the output is sorted descending by
founder potential. -/
theorem searchProfessionalProfiles_spec (fetched : List Profile) :
    searchProfessionalProfiles fetched = firstOccByKey (sortByFounderDesc fetched)
    ∧ (searchProfessionalProfiles fetched).Pairwise
        fun a b => b.founderPotential ≤ a.founderPotential := by
  constructor
  · exact deduplicateResults_eq_firstOccByKey _
  · have h1 := sortByFounderDesc_pairwise fetched
    have h2 := firstOccByKey_sublist (sortByFounderDesc fetched)
    rw [searchProfessionalProfiles, deduplicateResults_eq_firstOccByKey]
    exact List.Pairwise.sublist h2 h1

/-- C7: with an empty repository list, `_calculate_technical_score` returns
0 for the technical, innovation and collaboration scores and 0 for
`founder_potential`, for every user record (whatever its follower and
following counts) and every activity classification. -/
theorem calculateTechnicalScore_empty (user : UserData) (freq : String) (now : ℤ) :
    (calculateTechnicalScore user [] freq now).technicalScore = 0
    ∧ (calculateTechnicalScore user [] freq now).innovationScore = 0
    ∧ (calculateTechnicalScore user [] freq now).collaborationScore = 0
    ∧ (calculateTechnicalScore user [] freq now).founderPotential = 0 := by
  norm_num [calculateTechnicalScore, scoreLoop]

/-- C9: a user record with a parseable creation timestamp whose `bio` key
is present with value `None` makes `_calculate_age_info` raise inside the
`try` (at `None.lower()`, line 348) and return the fully degraded record,
for every repository list. -/
theorem calculateAgeInfo_nullBio (user : UserData) (repos : List Repo) (now : ℤ)
    (s : String) (t : ℤ)
    (hca : user.createdAt = some (some s))
    (hparse : pyFromIso (replaceZ s.data) = some t)
    (hbio : user.bio = some none) :
    calculateAgeInfo user repos now =
      { accountAge := "N/A", estimatedAge := none, earlyAchievements := [] } := by
  have htry : ageInfoTry user repos now = none := by
    simp only [ageInfoTry, hca, hbio, getStrField, hparse, Option.some_bind]
    cases earlyAchievements t repos <;> simp
  rw [calculateAgeInfo, htry]

/-- Witness for C9 at a concrete user. -/
theorem calculateAgeInfo_nullBio_witness :
    userNullBio.createdAt = some (some "2016-10-12T00:00:00Z")
    ∧ pyFromIso (replaceZ "2016-10-12T00:00:00Z".data) = some 1476230400
    ∧ userNullBio.bio = some none
    ∧ calculateAgeInfo userNullBio [] 0 =
        { accountAge := "N/A", estimatedAge := none, earlyAchievements := [] } := by
  have hparse : pyFromIso (replaceZ "2016-10-12T00:00:00Z".data) = some 1476230400 := by
    decide
  exact ⟨rfl, hparse, rfl,
    calculateAgeInfo_nullBio userNullBio [] 0 "2016-10-12T00:00:00Z" 1476230400
      rfl hparse rfl⟩

/-- C8 (counterexample): the bio `class of 1999` contains a four-digit
"class of YYYY" pattern (YYYY = 1999), so the claim predicts
`estimated_age = current_year - 1999 + 22 = 49`; but the code's regex only
matches years 2000-2099, so the code falls back to the account-age formula
and returns 25. -/
theorem c8_gradYear_counterexample :
    searchClassOfAny (lowerChars "class of 1999".data) = some 1999
    ∧ yearOfSecs nowOct2026 - 1999 + 22 = 49
    ∧ (calculateAgeInfo userClassOf1999 [] nowOct2026).estimatedAge = some 25
    ∧ ((25 : ℤ) ≠ 49) := by
  have hparse : pyFromIso (replaceZ "2016-10-12T00:00:00Z".data) = some 1476230400 := by
    decide
  have hsearch : searchClassOf20 (lowerChars "class of 1999".data) = none := by decide
  have hdiff : diffDays nowOct2026 1476230400 = 3652 := by decide
  refine ⟨by decide, by decide, ?_, by decide⟩
  have h1 : (calculateAgeInfo userClassOf1999 [] nowOct2026).estimatedAge
      = some (pyTrunc (max (16 + ((3652 : ℤ) : ℚ) / (365.25 : ℚ)) 16)) := by
    simp [calculateAgeInfo, ageInfoTry, userClassOf1999, getStrField, hparse,
      earlyAchievements, hsearch, hdiff]
  rw [h1]
  rw [show ((16 : ℚ) + ((3652 : ℤ) : ℚ) / (365.25 : ℚ)) = 37984 / 1461 by norm_num]
  rw [max_eq_left (by norm_num)]
  rw [pyTrunc, if_neg (by norm_num)]
  norm_num

/-- C8 (amended): when the creation timestamp parses, the bio is a string,
and the early-achievement pass raises no exception, the estimated age is:
the truncation of `current_year - YYYY + 22` when the lowercased bio
contains `class of 20YY` (the regex only matches years 2000-2099) and that
value is nonzero; in every other case (no match, or a match whose computed
value is the falsy 0) the truncation of `max(16 + account_age_years, 16)`. -/
theorem calculateAgeInfo_estimate (user : UserData) (repos : List Repo) (now : ℤ)
    (s bs : String) (t : ℤ) (eas : List Achievement)
    (hca : user.createdAt = some (some s))
    (hparse : pyFromIso (replaceZ s.data) = some t)
    (hbio : user.bio = some (some bs))
    (heas : earlyAchievements t repos = some eas) :
    (calculateAgeInfo user repos now).estimatedAge =
      some (pyTrunc
        (match (searchClassOf20 (lowerChars bs.data)).map
            (fun g => yearOfSecs now - g + 22) with
         | some v =>
           if v = 0 then max (16 + (diffDays now t : ℚ) / (365.25 : ℚ)) 16 else (v : ℚ)
         | none => max (16 + (diffDays now t : ℚ) / (365.25 : ℚ)) 16)) := by
  cases hms : searchClassOf20 (lowerChars bs.data) with
  | none =>
    simp [calculateAgeInfo, ageInfoTry, hca, hparse, hbio, heas, getStrField, hms]
  | some g =>
    by_cases hz : yearOfSecs now - g + 22 = 0 <;>
      simp [calculateAgeInfo, ageInfoTry, hca, hparse, hbio, heas, getStrField, hms, hz]

/-- Witness for C8 (amended): `Class of 2020` matches, and in October 2026
the estimate is `2026 - 2020 + 22 = 28`. -/
theorem calculateAgeInfo_estimate_witness :
    pyFromIso (replaceZ "2016-10-12T00:00:00Z".data) = some 1476230400
    ∧ earlyAchievements 1476230400 [] = some []
    ∧ (calculateAgeInfo userClassOf2020 [] nowOct2026).estimatedAge = some 28 := by
  have hparse : pyFromIso (replaceZ "2016-10-12T00:00:00Z".data) = some 1476230400 := by
    decide
  have h := calculateAgeInfo_estimate userClassOf2020 [] nowOct2026
    "2016-10-12T00:00:00Z" "Class of 2020" 1476230400 [] rfl hparse rfl rfl
  refine ⟨hparse, rfl, ?_⟩
  rw [h]
  have hms : searchClassOf20 (lowerChars "Class of 2020".data) = some 2020 := by decide
  have hy : yearOfSecs nowOct2026 = 2026 := by decide
  rw [hms]
  simp only [Option.map_some', hy]
  norm_num [pyTrunc]

end MultiSourceScraper
